import Mathlib

/-!
Shallow embedding of the quote-aggregation and price-resolution engine of the
Swap-Comparison service (the server routes module): the USD to base-unit
amount conversion, the LiFi and Bungee quote adapters, the best-route
selection, and the token price resolver with its five-minute cache.

JavaScript idioms are modelled explicitly: a string is falsy exactly when it
is empty, a number is falsy exactly when it is zero (or NaN, which the models
keep out of band as `Option.none`), absent object fields are `Option.none`,
and arbitrary-precision BigInt arithmetic on nonnegative operands is natural
number arithmetic.  Network requests appear as an environment of already
parsed responses; `Option.none` stands for any failure (a thrown fetch, a
non-ok status, or a missing field), which the source absorbs locally.
-/

/-- Lowercase of a string, modelling JavaScript toLowerCase on ASCII data. -/
def jsToLower (s : String) : String := String.mk (s.toList.map Char.toLower)

/-- JavaScript substring test s.includes(pat) for a nonempty literal pattern. -/
def strIncludes (s pat : String) : Bool := (s.splitOn pat).length ≥ 2

/-- JavaScript a || b where a is a possibly absent string (absent and the
empty string are falsy). -/
def jsOrStr (a : Option String) (b : String) : String :=
  match a with
  | some s => if s = "" then b else s
  | none => b

/-- JavaScript a || b where a is a possibly absent number (absent and 0 are falsy). -/
def jsOrNum (a : Option ℚ) (b : ℚ) : ℚ :=
  match a with
  | some q => if q = 0 then b else q
  | none => b

/-- Truthy projection of a possibly absent string field. -/
def optTruthy (o : Option String) : Option String :=
  match o with
  | some s => if s = "" then none else some s
  | none => none

/-- Substring test on a possibly absent string, modelling m?.includes(pat). -/
def optIncludes (o : Option String) (pat : String) : Bool :=
  match o with
  | some s => strIncludes s pat
  | none => false

/-- Numeric value of a list of decimal digit characters. -/
def digitsVal (l : List Char) : ℕ := l.foldl (fun a c => 10 * a + (c.toNat - 48)) 0

/-- The scanning stage of the parseFloat model: an optional sign, integer
digits, an optional fractional part; the longest valid prefix is kept and
trailing junk is ignored.  Returns the sign flag, the integer-part value, the
fractional-part value and the fractional digit count, or none when no digit
can be read. -/
def parseFloatParts (s : String) : Option (Bool × ℕ × ℕ × ℕ) :=
  let cs := s.toList
  let sc : Bool × List Char :=
    match cs with
    | '-' :: t => (true, t)
    | '+' :: t => (false, t)
    | _ => (false, cs)
  let ip := sc.2.takeWhile Char.isDigit
  let rest := sc.2.dropWhile Char.isDigit
  let fp : List Char :=
    match rest with
    | '.' :: t => t.takeWhile Char.isDigit
    | _ => []
  if ip.isEmpty && fp.isEmpty then none
  else some (sc.1, digitsVal ip, digitsVal fp, fp.length)

/-- Model of JavaScript parseFloat restricted to plain decimal numerals,
assembling the scanned parts into a rational; none stands for NaN. -/
def parseFloat (s : String) : Option ℚ :=
  (parseFloatParts s).map fun x =>
    (if x.1 then -1 else 1) * ((x.2.1 : ℚ) + (x.2.2.1 : ℚ) / 10 ^ x.2.2.2)

/-- Zero-pad a digit string on the left to width k. -/
def padZeros (k : ℕ) (s : String) : String :=
  String.mk (List.replicate (k - s.length) '0') ++ s

/-- Fixed-point rendering of a nonnegative rational with k decimal places,
rounding half up, the magnitude part of Number.prototype.toFixed. -/
def toFixedNat (q : ℚ) (k : ℕ) : String :=
  let n : ℕ := (⌊q * 10 ^ k + 1 / 2⌋).toNat
  if k = 0 then Nat.repr n
  else Nat.repr (n / 10 ^ k) ++ "." ++ padZeros k (Nat.repr (n % 10 ^ k))

/-- Model of JavaScript toFixed on an exact rational: the sign is peeled off
first and the magnitude is rounded half away from zero. -/
def toFixed (q : ℚ) (k : ℕ) : String :=
  if q < 0 then "-" ++ toFixedNat (-q) k else toFixedNat q k

/-- A JavaScript number as the converter distinguishes them: a finite
rational, or one of the non-finite values NaN, Infinity and -Infinity. -/
inductive JSNum
  | fin (q : ℚ)
  | nan
  | inf
  | ninf
  deriving DecidableEq

/-- Lines 804-824 of the routes module (identical in both adapters): guard the
unit price (a falsy or non-positive price is replaced by 1), form
tokenAmount = usdAmount / tokenPrice, and validate it.  Returns the pair
(tokenAmount, tokenPrice) when tokenAmount is finite and positive, none when
the source would return the Invalid amount error quote: a non-finite usd
amount stays non-finite under division by the positive finite tokenPrice
(NaN and Infinity fail isFinite, -Infinity additionally fails tokenAmount > 0). -/
def convertInfo (usd : JSNum) (unitPrice : ℚ) : Option (ℚ × ℚ) :=
  let tp := if 0 < unitPrice then unitPrice else 1
  match usd with
  | .fin q => if q / tp ≤ 0 then none else some (q / tp, tp)
  | _ => none

/-- Lines 826-829: the base-unit amount sent upstream,
BigInt(Math.floor(tokenAmount * 1000000)) * 10 ^ decimals / 10 ^ 6, with the
BigInt arithmetic on nonnegative operands rendered as natural numbers. -/
def toBaseUnits (usd : JSNum) (unitPrice : ℚ) (decimals : ℕ) : Option ℕ :=
  (convertInfo usd unitPrice).map fun x => (⌊x.1 * 1000000⌋).toNat * 10 ^ decimals / 1000000

/-- The normalized quote object returned by both adapters. -/
structure Quote where
  outputAmount : String
  estimatedTime : String
  provider : String
  route : Option String
  error : Option String
  inputTokenAmount : String
  tokenPrice : ℚ
  deriving DecidableEq

/-- The parsed body of a LiFi HTTP error response. -/
structure LiFiErrBody where
  message : Option String
  deriving DecidableEq

/-- The estimate object of a LiFi quote response. -/
structure LiFiEstimate where
  toAmount : Option String
  toolName : Option String
  executionDuration : Option ℚ
  deriving DecidableEq

/-- The body of a successful LiFi quote response, with the fields the handler
reads; stepsToolName stands for steps[0]?.tool?.name. -/
structure LiFiData where
  estimate : Option LiFiEstimate
  hasTransactionRequest : Bool
  toAmount : Option String
  message : Option String
  errorField : Option String
  toolName : Option String
  toolDetailsName : Option String
  stepsToolName : Option String
  executionDuration : Option ℚ
  deriving DecidableEq

/-- A LiFi quote HTTP exchange as the handler sees it: a non-ok status with an
optionally parseable body, or a parsed ok body. -/
inductive LiFiResp
  | httpError (status : ℕ) (body : Option LiFiErrBody)
  | ok (data : LiFiData)
  deriving DecidableEq

/-- Lines 853-889: the user-facing label for a non-ok LiFi status; the first
arm is used when the error body parses, the second when it does not. -/
def classifyLiFiError (status : ℕ) (body : Option LiFiErrBody) : String :=
  match body with
  | some b =>
    if status = 429 then "Rate limited - please wait"
    else if status = 404 then
      if optIncludes b.message "No available quotes" then "No routes available"
      else if optIncludes b.message "Price impact" then "Amount too large"
      else "Route not found"
    else if status = 400 then
      if optIncludes b.message "isBigNumberish" then "Invalid amount format"
      else "Invalid request"
    else if status = 500 then "Server error (" ++ Nat.repr status ++ ")"
    else if status = 503 then "Service unavailable (" ++ Nat.repr status ++ ")"
    else "Service unavailable (" ++ Nat.repr status ++ ")"
  | none =>
    if status = 429 then "Rate limited"
    else if status = 404 then "No routes found"
    else if status = 400 then "Bad request"
    else if status = 500 then "Server error (" ++ Nat.repr status ++ ")"
    else if status = 503 then "Service unavailable (" ++ Nat.repr status ++ ")"
    else "Error " ++ Nat.repr status

/-- Success-path output formatting shared by both adapters:
parseFloat(raw) / 10 ^ decimals rendered by toFixed(places); a raw string
with no numeric prefix gives NaN, which toFixed renders as the string NaN. -/
def formatOutput (raw : String) (decimals places : ℕ) : String :=
  match parseFloat raw with
  | some q => toFixed (q / 10 ^ decimals) places
  | none => "NaN"

/-- The error-kind quote shape of the LiFi adapter. -/
def lifiErrorQuote (msg amtStr : String) (tp : ℚ) : Quote :=
  ⟨"0.0000", "N/A", "LiFi", none, some msg, amtStr, tp⟩

/-- Lines 849-950: the response handling of getLiFiQuote, after the request
has been issued; amtStr is tokenAmount.toFixed(6) and tp the guarded price. -/
def processLiFiResponse (resp : LiFiResp) (toDecimals : ℕ) (amtStr : String) (tp : ℚ) : Quote :=
  match resp with
  | .httpError status body => lifiErrorQuote (classifyLiFiError status body) amtStr tp
  | .ok data =>
    if data.estimate.isNone && !data.hasTransactionRequest then
      lifiErrorQuote (jsOrStr data.message (jsOrStr data.errorField "No routes found")) amtStr tp
    else
      let toAmount := jsOrStr (data.estimate.bind (·.toAmount)) (jsOrStr data.toAmount "0")
      if toAmount = "0" then
        lifiErrorQuote (jsOrStr data.message (jsOrStr data.errorField "Insufficient liquidity")) amtStr tp
      else
        let toolName := jsOrStr data.toolName (jsOrStr (data.estimate.bind (·.toolName))
          (jsOrStr data.toolDetailsName (jsOrStr data.stepsToolName "LiFi Bridge")))
        let dur := jsOrNum (data.estimate.bind (·.executionDuration)) (jsOrNum data.executionDuration 120)
        ⟨formatOutput toAmount toDecimals 2, toString ⌈dur / 60⌉ ++ " min",
          toolName, some toolName, none, amtStr, tp⟩

/-- Lines 760-963 without the token-list decimal lookup (whose resolved
decimals enter as parameters): the conversion guard followed by the quote
request and its handling.  The second component is the base-unit amount the
network request carries, none when no request is made. -/
def getLiFiQuoteModel (usd : JSNum) (unitPrice : ℚ) (fromDecimals toDecimals : ℕ)
    (resp : LiFiResp) : Quote × Option ℕ :=
  match convertInfo usd unitPrice with
  | none => (⟨"0.0000", "N/A", "LiFi", none, some "Invalid amount", "0",
      if 0 < unitPrice then unitPrice else 1⟩, none)
  | some x =>
    (processLiFiResponse resp toDecimals (toFixed x.1 6) x.2,
      some ((⌊x.1 * 1000000⌋).toNat * 10 ^ fromDecimals / 1000000))

/-- One step of a Bungee route, with the protocol fields the label extraction
reads. -/
structure BStep where
  protocolDisplayName : Option String
  protocolName : Option String
  toolName : Option String
  deriving DecidableEq

/-- The output object of a Bungee route; an absent amount field behaves like
the empty string everywhere it is read (falsy, and NaN under parseFloat). -/
structure BOutput where
  amount : String
  deriving DecidableEq

/-- A Bungee route candidate with the fields the handlers read. -/
structure BRoute where
  output : Option BOutput
  usedBridgeNames : List String
  bridgeName : Option String
  steps : List BStep
  estimatedTime : Option ℚ
  serviceTime : Option ℚ
  estimatedProcessingTimeInSeconds : Option ℚ
  protocolDisplayName : Option String
  bridgeId : Option String
  deriving DecidableEq

/-- The result object of a Bungee quote response; absent route lists behave
like empty ones everywhere they are read. -/
structure BResult where
  autoRoute : Option BRoute
  manualRoutes : List BRoute
  routes : List BRoute
  deriving DecidableEq

/-- The body of a Bungee quote response that came back with an ok status. -/
structure BungeeData where
  success : Bool
  result : Option BResult
  message : Option String
  errorField : Option String
  deriving DecidableEq

/-- The parsed body of a Bungee HTTP error response. -/
structure BungeeErrBody where
  message : Option String
  deriving DecidableEq

/-- A Bungee quote HTTP exchange as the handlers see it. -/
inductive BungeeResp
  | httpError (status : ℕ) (body : Option BungeeErrBody)
  | ok (data : BungeeData)
  deriving DecidableEq

/-- Lines 1070-1097 (and identically 1386-1414): the user-facing label for a
non-ok Bungee status. -/
def classifyBungeeError (status : ℕ) (body : Option BungeeErrBody) : String :=
  match body with
  | some b =>
    if status = 429 then "Rate limited - please wait"
    else if status = 400 then
      if optIncludes b.message "BigNumberish" then "Invalid amount format"
      else if optIncludes b.message "fromAmount" then "Amount validation failed"
      else "Invalid request parameters"
    else if status = 404 then "Route not available"
    else if status = 500 then
      if optIncludes b.message "BigNumberish" then "Amount processing error"
      else "Server error"
    else "Service unavailable"
  | none =>
    if status = 429 then "Rate limited"
    else if status = 400 then "Bad request"
    else if status = 404 then "Not found"
    else if status = 500 then "Server error"
    else "Service unavailable"

/-- The parsed output amount of a route candidate: none when the route has no
output object, an empty (falsy) amount, or a non-numeric amount whose NaN
never wins a comparison. -/
def routeParsedAmount (r : BRoute) : Option ℚ :=
  match r.output with
  | some o => if o.amount = "" then none else parseFloat o.amount
  | none => none

/-- Lines 1199-1209 (and identically 1492-1502): the best-manual-route scan;
the accumulator is the pair (bestManualRoute, bestOutputAmount), started at
(null, 0), updated on a strictly larger parsed output. -/
def bestManualAux : List BRoute → Option BRoute × ℚ → Option BRoute × ℚ
  | [], acc => acc
  | r :: rs, acc =>
    match routeParsedAmount r with
    | some q => if acc.2 < q then bestManualAux rs (some r, q) else bestManualAux rs acc
    | none => bestManualAux rs acc

/-- The best manual route of a candidate list and its parsed output amount. -/
def bestManual (l : List BRoute) : Option BRoute × ℚ := bestManualAux l (none, 0)

/-- The error-kind quote shape of the Bungee adapter. -/
def bungeeErrorQuote (msg amtStr : String) (tp : ℚ) : Quote :=
  ⟨"0.0000", "N/A", "Bungee", none, some msg, amtStr, tp⟩

/-- Minutes label Math.ceil(t / 60) + min, with JS truthiness on t and a
default when the field is absent or zero. -/
def minutesLabel (t : Option ℚ) (dflt : String) : String :=
  match t with
  | some v => if v = 0 then dflt else toString ⌈v / 60⌉ ++ " min"
  | none => dflt

/-- Lines 1144-1181: the auto-route quote of getBungeeQuotesBoth.  The success
shape is produced exactly when the auto route is present with an output object
whose amount string is truthy. -/
def bungeeAutoQuote (result : BResult) (toDecimals : ℕ) (amtStr : String) (tp : ℚ) : Quote :=
  match result.autoRoute with
  | some r =>
    match r.output with
    | some o =>
      if o.amount = "" then ⟨"0.0000", "N/A", "Bungee Auto", none, some "No auto route", amtStr, tp⟩
      else
        let bridgeName :=
          match r.usedBridgeNames.head? with
          | some n => n ++ " (Auto)"
          | none =>
            match optTruthy r.bridgeName with
            | some bn => bn ++ " (Auto)"
            | none => "Bungee Auto"
        ⟨formatOutput o.amount toDecimals 4, minutesLabel r.estimatedTime "5 min",
          bridgeName, some bridgeName, none, amtStr, tp⟩
    | none => ⟨"0.0000", "N/A", "Bungee Auto", none, some "No auto route", amtStr, tp⟩
  | none => ⟨"0.0000", "N/A", "Bungee Auto", none, some "No auto route", amtStr, tp⟩

/-- Lines 1222-1229: the step-derived route label of the best manual route. -/
def bungeeManualStepName (r : BRoute) : String :=
  match r.steps.head? with
  | some st =>
    match optTruthy st.protocolDisplayName with
    | some d2 => d2 ++ " (Manual)"
    | none =>
      match optTruthy st.protocolName with
      | some pn => pn ++ " (Manual)"
      | none => "Bungee Manual"
  | none => "Bungee Manual"

/-- Lines 1215-1229: the suffixed route label of the best manual route. -/
def bungeeManualBridgeName (r : BRoute) : String :=
  match r.usedBridgeNames.head? with
  | some n => n ++ " (Manual)"
  | none =>
    match optTruthy r.bridgeName with
    | some bn => bn ++ " (Manual)"
    | none => bungeeManualStepName r

/-- Lines 1235-1248: the raw provider display name of the best manual route,
falling back to the suffixed label when no name field is found. -/
def bungeeManualDisplayName (r : BRoute) : String :=
  match r.usedBridgeNames.head? with
  | some n => n
  | none =>
    match optTruthy r.bridgeName with
    | some bn => bn
    | none =>
      match r.steps.head? with
      | some st =>
        match optTruthy st.protocolDisplayName with
        | some d2 => d2
        | none =>
          match optTruthy st.protocolName with
          | some pn => pn
          | none => bungeeManualBridgeName r
      | none => bungeeManualBridgeName r

/-- Lines 1183-1261: the manual-route quote of getBungeeQuotesBoth: the best
manual route formatted from the tracked bestOutputAmount, or the default
No manual routes quote when the list is empty or no candidate was usable. -/
def bungeeManualQuote (result : BResult) (toDecimals : ℕ) (amtStr : String) (tp : ℚ) : Quote :=
  if result.manualRoutes.isEmpty then
    ⟨"0.0000", "N/A", "Bungee Manual", none, some "No manual routes", amtStr, tp⟩
  else
    match (bestManual result.manualRoutes).1 with
    | some r =>
      ⟨toFixed ((bestManual result.manualRoutes).2 / 10 ^ toDecimals) 4,
        minutesLabel r.estimatedTime "5 min",
        bungeeManualDisplayName r, some (bungeeManualBridgeName r), none, amtStr, tp⟩
    | none => ⟨"0.0000", "N/A", "Bungee Manual", none, some "No manual routes", amtStr, tp⟩

/-- Lines 1066-1263: the response handling of getBungeeQuotesBoth, producing
the (auto, manual) quote pair. -/
def processBungeeBoth (resp : BungeeResp) (toDecimals : ℕ) (amtStr : String) (tp : ℚ) :
    Quote × Quote :=
  match resp with
  | .httpError status body =>
    let q := bungeeErrorQuote (classifyBungeeError status body) amtStr tp
    (q, q)
  | .ok data =>
    if !data.success then
      let q := bungeeErrorQuote (jsOrStr data.message (jsOrStr data.errorField "Quote failed")) amtStr tp
      (q, q)
    else
      match data.result with
      | none =>
        let q := bungeeErrorQuote "No quote available" amtStr tp
        (q, q)
      | some result =>
        (bungeeAutoQuote result toDecimals amtStr tp, bungeeManualQuote result toDecimals amtStr tp)

/-- Lines 965-1279 without the token-list decimal lookup: the conversion guard
followed by the quote request and its handling; the last component is the
base-unit amount the network request carries, none when no request is made. -/
def getBungeeBothModel (usd : JSNum) (unitPrice : ℚ) (fromDecimals toDecimals : ℕ)
    (resp : BungeeResp) : (Quote × Quote) × Option ℕ :=
  match convertInfo usd unitPrice with
  | none =>
    let q : Quote := ⟨"0.0000", "N/A", "Bungee", none, some "Invalid amount", "0",
      if 0 < unitPrice then unitPrice else 1⟩
    ((q, q), none)
  | some x =>
    (processBungeeBoth resp toDecimals (toFixed x.1 6) x.2,
      some ((⌊x.1 * 1000000⌋).toNat * 10 ^ fromDecimals / 1000000))

/-- Lines 1485-1515 fallback arm of getBungeeQuote: a nonempty manualRoutes
list is scanned for the best manual route and nothing further is tried when
that scan finds no usable candidate; only an empty (or absent) manualRoutes
list falls through to the head of the legacy routes list. -/
def selectBungeeNonAuto (result : BResult) : Option BRoute :=
  if result.manualRoutes.isEmpty then result.routes.head?
  else (bestManual result.manualRoutes).1

/-- Lines 1474-1515: the best-of-both route selection of getBungeeQuote: the
auto route is taken whenever it is present with an output object, regardless
of every manual route. -/
def selectBungeeRoute (result : BResult) : Option BRoute :=
  match result.autoRoute with
  | some r => if r.output.isSome then some r else selectBungeeNonAuto result
  | none => selectBungeeNonAuto result

/-- The price cache, line 422: a map from key strings to (price, timestamp). -/
def PriceCache : Type := String → Option (ℚ × ℕ)

/-- Line 423: the five-minute TTL, in milliseconds. -/
def PRICE_CACHE_DURATION : ℕ := 5 * 60 * 1000

/-- The empty cache. -/
def emptyCache : PriceCache := fun _ => none

/-- Line 469 and friends: tokenPriceCache.set with the current timestamp. -/
def cacheSet (cache : PriceCache) (key : String) (price : ℚ) (now : ℕ) : PriceCache :=
  fun k => if k = key then some (price, now) else cache k

/-- Lines 431-435: a cached entry is used only while now - timestamp is
strictly below the TTL; a stale entry is ignored. -/
def cacheFresh (cache : PriceCache) (key : String) (now : ℕ) : Option ℚ :=
  match cache key with
  | some pt => if now - pt.2 < PRICE_CACHE_DURATION then some pt.1 else none
  | none => none

/-- Line 428: the cache key, chain id joined to the lowercased address. -/
def priceCacheKey (chain token : String) : String := chain ++ "-" ++ jsToLower token

/-- Lines 415-419: the two native-asset sentinel addresses. -/
def isNativeToken (token : String) : Bool :=
  jsToLower token = "0x0000000000000000000000000000000000000000" ||
  jsToLower token = "0xeeeeeeeeeeeeeeeeeeeeeeeeeeeeeeeeeeeeeeee"

/-- Lines 445-455: the chain id to CoinGecko coin id table for native assets. -/
def nativeTokenSymbols (chain : String) : Option String :=
  if chain = "1" then some "ethereum"
  else if chain = "56" then some "binancecoin"
  else if chain = "137" then some "matic-network"
  else if chain = "43114" then some "avalanche-2"
  else if chain = "250" then some "fantom"
  else if chain = "42161" then some "ethereum"
  else if chain = "10" then some "ethereum"
  else if chain = "8453" then some "ethereum"
  else if chain = "130" then some "polygon"
  else none

/-- Lines 479-489: the hardcoded fallback prices for native assets. -/
def nativePrices (chain : String) : Option ℚ :=
  if chain = "1" then some 3800
  else if chain = "56" then some 650
  else if chain = "137" then some (11 / 10)
  else if chain = "43114" then some 42
  else if chain = "250" then some (9 / 10)
  else if chain = "42161" then some 3800
  else if chain = "10" then some 3800
  else if chain = "8453" then some 3800
  else if chain = "130" then some (11 / 10)
  else none

/-- Lines 624-638: the static contract address to CoinGecko coin id table. -/
def knownTokenContracts (ntok : String) : Option String :=
  if ntok = "0x1f9840a85d5af5bf1d1762f925bdaddc4201f984" then some "uniswap"
  else if ntok = "0x514910771af9ca656af840dff83e8264ecf986ca" then some "chainlink"
  else if ntok = "0xa0b86a33e6e6061b7a5c41c6c7e8b5b9e4a2c5b3" then some "usd-coin"
  else if ntok = "0xdac17f958d2ee523a2206206994597c13d831ec7" then some "tether"
  else if ntok = "0x2260fac5e5542a773aa44fbcfedf7c193bc2c599" then some "wrapped-bitcoin"
  else if ntok = "0xc02aaa39b223fe8d0a0e5c4f27ead9083c756cc2" then some "weth"
  else if ntok = "0x4200000000000000000000000000000000000042" then some "optimism"
  else if ntok = "0x0b2c639c533813f4aa9d7837caf62653d097ff85" then some "usd-coin"
  else if ntok = "0x68f180fcce6836688e9084f035309e29bf0a2095" then some "wrapped-bitcoin"
  else if ntok = "0x4200000000000000000000000000000000000006" then some "weth"
  else if ntok = "0x7f5c764cbc14f9669b88837ca1490cca17c31607" then some "usd-coin"
  else if ntok = "0x350a791bfc2c21f9ed5d10980dad2e2638ffa7f6" then some "chainlink"
  else none

/-- Lines 665-674: the chain id to CoinGecko platform slug table. -/
def platformMappings (chain : String) : Option String :=
  if chain = "1" then some "ethereum"
  else if chain = "56" then some "binance-smart-chain"
  else if chain = "137" then some "polygon-pos"
  else if chain = "43114" then some "avalanche"
  else if chain = "250" then some "fantom"
  else if chain = "42161" then some "arbitrum-one"
  else if chain = "10" then some "optimistic-ethereum"
  else if chain = "8453" then some "base"
  else none

/-- Lines 698-706: the static stablecoin allow-list (lowercased addresses). -/
def stablecoins : List String :=
  ["0xa0b86a33e6e6061b7a5c41c6c7e8b5b9e4a2c5b3",
   "0xdac17f958d2ee523a2206206994597c13d831ec7",
   "0x6b175474e89094c44da98b954eedeac495271d0f",
   "0x4fabb145d64652a948d72533023f6e7a623c7c53",
   "0x8ac76a51cc950d9822d68b83fe1ad97b32cd580d",
   "0x0b2c639c533813f4aa9d7837caf62653d097ff85",
   "0x7f5c764cbc14f9669b88837ca1490cca17c31607"]

/-- Line 535: the special-cased UNI token address. -/
def uniAddr : String := "0x1f9840a85d5af5bf1d1762f925bdaddc4201f984"

/-- A Bungee token-list entry; priceInUsd is some v when the field holds the
number v, none when it is undefined, null, or not a number (including NaN). -/
structure BungeeToken where
  address : String
  symbol : String
  priceInUsd : Option ℚ
  deriving DecidableEq

/-- A LiFi token-list entry; priceUSD as in BungeeToken.priceInUsd. -/
structure LiFiToken where
  address : String
  symbol : String
  priceUSD : Option ℚ
  deriving DecidableEq

/-- The upstream world as the resolver observes it: each component maps a
request to the relevant value of a successfully parsed response, with none
standing for any failure (a thrown fetch, a non-ok status, a missing field or
chain entry), which the source logs and treats as a strategy miss. -/
structure PriceEnv where
  cgSimple : String → Option ℚ
  cgByPlatform : String → String → Option ℚ
  bungeeTokens : String → Option (List BungeeToken)
  lifiTokens : String → Option (List LiFiToken)

/-- The environment in which no upstream service responds. -/
def emptyEnv : PriceEnv :=
  ⟨fun _ => none, fun _ _ => none, fun _ => none, fun _ => none⟩

/-- Lines 733-756: resolve a symbol for an address from the Bungee token
list; the caller accounts for the fetch this helper performs. -/
def getTokenSymbolFromChainData (env : PriceEnv) (chain addr : String) : Option String :=
  match env.bungeeTokens chain with
  | some toks => (toks.find? (fun t => jsToLower t.address = jsToLower addr)).map (·.symbol)
  | none => none

/-- Lines 548-559: a Bungee token price is used only when the field is a
number that is positive and not NaN. -/
def bungeeTokenPrice (t : BungeeToken) : Option ℚ :=
  match t.priceInUsd with
  | some p => if 0 < p then some p else none
  | none => none

/-- Line 610: a LiFi token price is used only when the field is a truthy
number that is positive. -/
def lifiTokenPrice (t : LiFiToken) : Option ℚ :=
  match t.priceUSD with
  | some p => if 0 < p then some p else none
  | none => none

/-- Lines 441-497: the native-token block; the result is a price when one of
the two native strategies hits, paired with the number of fetches attempted.
The CoinGecko usd field is used under JS truthiness alone (any nonzero
number); a falsy or absent value falls back to the hardcoded price table, and
an unmapped chain falls through to the token-list strategies. -/
def nativeStrat (env : PriceEnv) (chain token : String) : Option ℚ × ℕ :=
  if isNativeToken token then
    match nativeTokenSymbols chain with
    | some coinId =>
      match env.cgSimple coinId with
      | some v => if v ≠ 0 then (some v, 1) else (nativePrices chain, 1)
      | none => (nativePrices chain, 1)
    | none => (nativePrices chain, 0)
  else (none, 0)

/-- Lines 499-565: the Bungee token-list strategy: exact address match, then
the symbol fallback (one extra fetch through the symbol helper), then the UNI
special case; a found token is used only with a valid positive price. -/
def bungeeStrat (env : PriceEnv) (chain ntok : String) : Option ℚ × ℕ :=
  match env.bungeeTokens chain with
  | none => (none, 1)
  | some toks =>
    match toks.find? (fun t => jsToLower t.address = ntok) with
    | some tok => (bungeeTokenPrice tok, 1)
    | none =>
      let bySymbol :=
        match getTokenSymbolFromChainData env chain ntok with
        | some sym => toks.find? (fun t => jsToLower t.symbol = jsToLower sym)
        | none => none
      let found :=
        match bySymbol with
        | some t => some t
        | none => if ntok = uniAddr then toks.find? (fun t : BungeeToken => jsToLower t.symbol = "uni") else none
      (found.bind bungeeTokenPrice, 2)

/-- Lines 567-619: the LiFi token-list strategy, with the same
exact-then-symbol-then-UNI structure (the symbol helper again fetches the
Bungee list). -/
def lifiStrat (env : PriceEnv) (chain ntok : String) : Option ℚ × ℕ :=
  match env.lifiTokens chain with
  | none => (none, 1)
  | some toks =>
    match toks.find? (fun t => jsToLower t.address = ntok) with
    | some tok => (lifiTokenPrice tok, 1)
    | none =>
      let bySymbol :=
        match getTokenSymbolFromChainData env chain ntok with
        | some sym => toks.find? (fun t => jsToLower t.symbol = jsToLower sym)
        | none => none
      let found :=
        match bySymbol with
        | some t => some t
        | none => if ntok = uniAddr then toks.find? (fun t : LiFiToken => jsToLower t.symbol = "uni") else none
      (found.bind lifiTokenPrice, 2)

/-- Lines 621-660: the CoinGecko by-known-contract strategy; the usd field is
used under JS truthiness alone. -/
def cgContractStrat (env : PriceEnv) (ntok : String) : Option ℚ × ℕ :=
  match knownTokenContracts ntok with
  | some coinId =>
    match env.cgSimple coinId with
    | some v => (if v ≠ 0 then some v else none, 1)
    | none => (none, 1)
  | none => (none, 0)

/-- Lines 662-695: the CoinGecko platform strategy, skipped for native
sentinels and unmapped chains; the usd field is used under JS truthiness. -/
def cgPlatformStrat (env : PriceEnv) (chain token ntok : String) : Option ℚ × ℕ :=
  match platformMappings chain with
  | some plat =>
    if isNativeToken token then (none, 0)
    else
      match env.cgByPlatform plat ntok with
      | some v => (if v ≠ 0 then some v else none, 1)
      | none => (none, 1)
  | none => (none, 0)

/-- Lines 437-724: the strategy cascade run on a cache miss, short-circuiting
on the first hit; returns the resolved price and the number of upstream
fetches attempted.  The stablecoin allow-list step and the hard fallback both
yield 1 (they differ only in logging). -/
def resolveMiss (env : PriceEnv) (chain token : String) : ℚ × ℕ :=
  let ntok := jsToLower token
  let n0 := nativeStrat env chain token
  match n0.1 with
  | some p => (p, n0.2)
  | none =>
    let s1 := bungeeStrat env chain ntok
    match s1.1 with
    | some p => (p, n0.2 + s1.2)
    | none =>
      let s2 := lifiStrat env chain ntok
      match s2.1 with
      | some p => (p, n0.2 + s1.2 + s2.2)
      | none =>
        let s3 := cgContractStrat env ntok
        match s3.1 with
        | some p => (p, n0.2 + s1.2 + s2.2 + s3.2)
        | none =>
          let s4 := cgPlatformStrat env chain token ntok
          match s4.1 with
          | some p => (p, n0.2 + s1.2 + s2.2 + s3.2 + s4.2)
          | none =>
            if stablecoins.contains ntok then (1, n0.2 + s1.2 + s2.2 + s3.2 + s4.2)
            else (1, n0.2 + s1.2 + s2.2 + s3.2 + s4.2)

/-- Lines 426-730: getTokenPrice, returning the price, the updated cache and
the number of upstream fetches.  The source stores the result with
tokenPriceCache.set on each cache-miss return path, always under the same key
and a current timestamp, which the model factors into a single cacheSet; the
cache-hit path returns without writing. -/
def getTokenPrice (env : PriceEnv) (cache : PriceCache) (now : ℕ)
    (chain token : String) : ℚ × PriceCache × ℕ :=
  let key := priceCacheKey chain token
  match cacheFresh cache key now with
  | some p => (p, cache, 0)
  | none =>
    let r := resolveMiss env chain token
    (r.1, cacheSet cache key r.1 now, r.2)

/-! Evaluation helpers: the rational arithmetic inside the models does not
reduce definitionally, so concrete runs are computed by discharging the
arithmetic with norm_num and the string and natural-number parts by decide. -/

/-- Evaluation helper for parseFloat from a computed parts tuple. -/
theorem parseFloat_eval (s : String) (b : Bool) (i f k : ℕ)
    (h : parseFloatParts s = some (b, i, f, k)) :
    parseFloat s = some ((if b then -1 else 1) * ((i : ℚ) + (f : ℚ) / 10 ^ k)) := by
  simp [parseFloat, h]

/-- Evaluation helper for toFixedNat from a computed floor value. -/
theorem toFixedNat_eval (q : ℚ) (k n : ℕ) (h : ⌊q * 10 ^ k + 1 / 2⌋ = (n : ℤ)) :
    toFixedNat q k =
      if k = 0 then Nat.repr n
      else Nat.repr (n / 10 ^ k) ++ "." ++ padZeros k (Nat.repr (n % 10 ^ k)) := by
  unfold toFixedNat
  rw [h]
  simp

/-- Evaluation helper for toFixed of a nonnegative rational. -/
theorem toFixed_eval (q : ℚ) (k n : ℕ) (hq : 0 ≤ q) (h : ⌊q * 10 ^ k + 1 / 2⌋ = (n : ℤ)) :
    toFixed q k =
      if k = 0 then Nat.repr n
      else Nat.repr (n / 10 ^ k) ++ "." ++ padZeros k (Nat.repr (n % 10 ^ k)) := by
  unfold toFixed
  rw [if_neg (not_lt.mpr hq), toFixedNat_eval q k n h]

/-! Claim C1.  The stated micro-token accuracy bound holds exactly when the
token has at least six decimals: the conversion floors at micro-token
precision and the final integer division by 10 ^ 6 is exact for
decimals ≥ 6, but truncates further for fewer decimals. -/

/-- Claim C1, counterexample: for a two-decimal token the conversion of
1 USD at unit price 3 yields 33 base units, i.e. 0.33 tokens, which is off
the exact 1/3 tokens by 1/300, far more than one millionth of a token. -/
theorem toBaseUnits_two_decimals_cex :
    toBaseUnits (.fin 1) 3 2 = some 33 ∧
      ¬ |((33 : ℚ)) / 10 ^ 2 - 1 / 3| ≤ 1 / 1000000 := by
  constructor
  · norm_num [toBaseUnits, convertInfo]
    decide
  · rw [abs_le]
    norm_num

/-- Claim C1 (amended): for every positive usdAmount and unitPrice and every
token with at least six decimals, the conversion succeeds and the base-unit
amount divided by 10 ^ decimals is within one millionth of a token of
usdAmount / unitPrice. -/
theorem toBaseUnits_micro_accuracy (usd p : ℚ) (d : ℕ)
    (hu : 0 < usd) (hp : 0 < p) (hd : 6 ≤ d) :
    ∃ n : ℕ, toBaseUnits (.fin usd) p d = some n ∧
      |(n : ℚ) / 10 ^ d - usd / p| ≤ 1 / 1000000 := by
  have ht : 0 < usd / p := div_pos hu hp
  have hconv : convertInfo (.fin usd) p = some (usd / p, p) := by
    simp [convertInfo, hp, (div_pos hu hp).not_le]
  have hm0 : (0 : ℤ) ≤ ⌊usd / p * 1000000⌋ := Int.floor_nonneg.mpr (by positivity)
  set m := ⌊usd / p * 1000000⌋ with hms
  refine ⟨m.toNat * 10 ^ d / 1000000, ?_, ?_⟩
  · simp [toBaseUnits, hconv]
  · obtain ⟨e, he⟩ : ∃ e, d = 6 + e := ⟨d - 6, by omega⟩
    subst he
    have hkey : ((m.toNat * 10 ^ (6 + e) / 1000000 : ℕ) : ℚ) / 10 ^ (6 + e)
        = (m : ℚ) / 1000000 := by
      have h1 : m.toNat * 10 ^ (6 + e) / 1000000 = m.toNat * 10 ^ e := by
        rw [pow_add]
        rw [show m.toNat * (10 ^ 6 * 10 ^ e) = 1000000 * (m.toNat * 10 ^ e) by ring]
        exact Nat.mul_div_cancel_left _ (by norm_num)
      have hmn : ((m.toNat : ℚ)) = (m : ℚ) := by exact_mod_cast Int.toNat_of_nonneg hm0
      rw [h1]
      rw [pow_add]
      push_cast
      rw [hmn]
      rw [div_eq_div_iff (by positivity) (by norm_num)]
      ring
    rw [hkey]
    have h1 : (m : ℚ) ≤ usd / p * 1000000 := Int.floor_le _
    have h2 : usd / p * 1000000 < m + 1 := Int.lt_floor_add_one _
    rw [abs_le]
    constructor
    · nlinarith
    · nlinarith

/-- Witness for the amended claim C1 at usdAmount 5, unitPrice 2, 6 decimals. -/
theorem toBaseUnits_micro_accuracy_witness :
    ∃ n : ℕ, toBaseUnits (.fin 5) 2 6 = some n ∧
      |(n : ℚ) / 10 ^ 6 - 5 / 2| ≤ 1 / 1000000 :=
  toBaseUnits_micro_accuracy 5 2 6 (by norm_num) (by norm_num) (by norm_num)

/-! Claim C4.  The conversion signals Invalid amount exactly for a non-finite
usd amount or a non-positive token amount; a zero unit price alone is guarded
by substituting price 1 (lines 805, 1013), so a positive finite usd amount
still converts and the quote request is still made. -/

/-- Claim C4, counterexample: at unitPrice 0 and usdAmount 1000 the guard
substitutes price 1, the conversion succeeds with 10 ^ 9 base units for a
six-decimal token, the network call is made, and the returned quote carries
the upstream error, not Invalid amount. -/
theorem zero_unit_price_still_quotes :
    (getLiFiQuoteModel (.fin 1000) 0 6 6 (.httpError 429 none)).2 = some 1000000000 ∧
    (getLiFiQuoteModel (.fin 1000) 0 6 6 (.httpError 429 none)).1.error = some "Rate limited" := by
  have hconv : convertInfo (.fin 1000) 0 = some (1000, 1) := by
    norm_num [convertInfo]
  constructor
  · simp [getLiFiQuoteModel, hconv]
    rw [show ⌊(1000 : ℚ) * 1000000⌋ = (1000000000 : ℤ) by norm_num]
    rfl
  · simp [getLiFiQuoteModel, hconv, processLiFiResponse, classifyLiFiError, lifiErrorQuote]

/-- Claim C4 (amended): a failed conversion makes both adapters return the
Invalid amount error quote with zero output and no network call; the
conversion fails exactly for non-finite usd amounts and non-positive token
amounts, while a positive finite usd amount converts for every unit price,
including zero (the guard substitutes 1). -/
theorem invalid_amount_error_quotes :
    (∀ (u : JSNum) (p : ℚ) (fd td : ℕ) (resp : LiFiResp), convertInfo u p = none →
       getLiFiQuoteModel u p fd td resp =
         (⟨"0.0000", "N/A", "LiFi", none, some "Invalid amount", "0",
            if 0 < p then p else 1⟩, none)) ∧
    (∀ (u : JSNum) (p : ℚ) (fd td : ℕ) (resp : BungeeResp), convertInfo u p = none →
       getBungeeBothModel u p fd td resp =
         ((⟨"0.0000", "N/A", "Bungee", none, some "Invalid amount", "0",
             if 0 < p then p else 1⟩,
           ⟨"0.0000", "N/A", "Bungee", none, some "Invalid amount", "0",
             if 0 < p then p else 1⟩), none)) ∧
    (∀ p : ℚ, convertInfo .nan p = none ∧ convertInfo .inf p = none ∧
       convertInfo .ninf p = none) ∧
    (∀ q p : ℚ, q ≤ 0 → convertInfo (.fin q) p = none) ∧
    (∀ q p : ℚ, 0 < q → (convertInfo (.fin q) p).isSome) := by
  have htp : ∀ p : ℚ, 0 < (if 0 < p then p else 1) := by
    intro p
    by_cases hp : 0 < p <;> simp [hp]
  refine ⟨?_, ?_, ?_, ?_, ?_⟩
  · intro u p fd td resp h
    simp [getLiFiQuoteModel, h]
  · intro u p fd td resp h
    simp [getBungeeBothModel, h]
  · intro p
    exact ⟨rfl, rfl, rfl⟩
  · intro q p h
    simp only [convertInfo]
    rw [if_pos (by rw [div_nonpos_iff]; right; exact ⟨h, (htp p).le⟩)]
  · intro q p h
    simp only [convertInfo]
    rw [if_neg (not_le.mpr (div_pos h (htp p)))]
    rfl

/-- Witness for the amended claim C4: a NaN usd amount yields the Invalid
amount quote and no network call. -/
theorem invalid_amount_error_quotes_witness :
    getLiFiQuoteModel .nan 2 6 6 (.httpError 429 none) =
      (⟨"0.0000", "N/A", "LiFi", none, some "Invalid amount", "0",
         if 0 < (2 : ℚ) then 2 else 1⟩, none) :=
  invalid_amount_error_quotes.1 .nan 2 6 6 (.httpError 429 none) rfl

/-! Claims C5 and C8: route selection.  The best-manual scan is characterized
by the following lemmas on its running maximum. -/

/-- The parsed output amount of a route as the comparisons see it, with zero
for an unusable candidate (which the started-at-zero scan never selects). -/
def amtQ (r : BRoute) : ℚ := (routeParsedAmount r).getD 0

/-- Running maximum of the parsed output amounts, seeded with b. -/
def runMax (b : ℚ) : List BRoute → ℚ
  | [] => b
  | r :: rs => runMax (max b (amtQ r)) rs

/-- The seed never exceeds the running maximum. -/
theorem le_runMax (b : ℚ) (l : List BRoute) : b ≤ runMax b l := by
  induction l generalizing b with
  | nil => exact le_rfl
  | cons r rs ih => exact le_trans (le_max_left _ _) (ih (max b (amtQ r)))

/-- Every candidate amount is bounded by the running maximum. -/
theorem amtQ_le_runMax (b : ℚ) (l : List BRoute) :
    ∀ r ∈ l, amtQ r ≤ runMax b l := by
  induction l generalizing b with
  | nil => intro r h; cases h
  | cons r rs ih =>
    intro r' h
    rcases List.mem_cons.mp h with h' | h'
    · subst h'
      exact le_trans (le_max_right b (amtQ r')) (le_runMax _ rs)
    · exact ih (max b (amtQ r)) r' h'

/-- The scan leaves its accumulator untouched over candidates that never beat
the accumulated best amount. -/
theorem bestManualAux_skip (l : List BRoute) (best : Option BRoute) (b : ℚ)
    (h : ∀ r ∈ l, amtQ r ≤ b) : bestManualAux l (best, b) = (best, b) := by
  induction l with
  | nil => rfl
  | cons r rs ih =>
    have hr : amtQ r ≤ b := h r (List.mem_cons_self r rs)
    cases hpr : routeParsedAmount r with
    | some q =>
      have hq : q ≤ b := by
        rw [amtQ, hpr] at hr
        exact hr
      simp only [bestManualAux, hpr, if_neg (not_lt.mpr hq)]
      exact ih fun r' h' => h r' (List.mem_cons_of_mem _ h')
    | none =>
      simp only [bestManualAux, hpr]
      exact ih fun r' h' => h r' (List.mem_cons_of_mem _ h')

/-- The scan selects the first candidate attaining the running maximum,
whenever some candidate strictly beats the seed. -/
theorem bestManualAux_spec (l : List BRoute) (best : Option BRoute) (b : ℚ)
    (hb : 0 ≤ b) (hlt : b < runMax b l) :
    ∃ i r, l.get? i = some r ∧ (bestManualAux l (best, b)).1 = some r ∧
      amtQ r = runMax b l ∧
      ∀ j rj, j < i → l.get? j = some rj → amtQ rj < runMax b l := by
  induction l generalizing best b with
  | nil => exact absurd hlt (lt_irrefl b)
  | cons r rs ih =>
    have hrm : runMax b (r :: rs) = runMax (max b (amtQ r)) rs := rfl
    cases hpr : routeParsedAmount r with
    | some q =>
      have haq : amtQ r = q := by rw [amtQ, hpr]; rfl
      by_cases hbq : b < q
      · have hmax : max b (amtQ r) = q := by rw [haq]; exact max_eq_right hbq.le
        have hstep : bestManualAux (r :: rs) (best, b) = bestManualAux rs (some r, q) := by
          simp only [bestManualAux, hpr, if_pos hbq]
        by_cases himp : q < runMax q rs
        · obtain ⟨i, r', hget, hres, hamt, hbef⟩ :=
            ih (some r) q (le_trans hb hbq.le) himp
          refine ⟨i + 1, r', by simpa using hget, ?_, ?_, ?_⟩
          · rw [hstep]; exact hres
          · rw [hrm, hmax]; exact hamt
          · intro j rj hj hgetj
            rw [hrm, hmax]
            cases j with
            | zero =>
              have : rj = r := by
                have h0 := hgetj
                simp only [List.get?] at h0
                exact (Option.some.inj h0).symm
              subst this
              rw [haq]; exact himp
            | succ j' =>
              exact hbef j' rj (by omega) (by simpa using hgetj)
        · have hall : ∀ r' ∈ rs, amtQ r' ≤ q := by
            have heq : runMax q rs = q := le_antisymm (not_lt.mp himp) (le_runMax q rs)
            intro r' h'
            rw [← heq]
            exact amtQ_le_runMax q rs r' h'
          refine ⟨0, r, rfl, ?_, ?_, ?_⟩
          · rw [hstep, bestManualAux_skip rs (some r) q hall]
          · rw [hrm, hmax, haq]
            exact (le_antisymm (not_lt.mp himp) (le_runMax q rs)).symm
          · intro j rj hj _
            exact absurd hj (Nat.not_lt_zero j)
      · have hmax : max b (amtQ r) = b := by rw [haq]; exact max_eq_left (not_lt.mp hbq)
        have hstep : bestManualAux (r :: rs) (best, b) = bestManualAux rs (best, b) := by
          simp only [bestManualAux, hpr, if_neg hbq]
        rw [hrm, hmax] at hlt ⊢
        obtain ⟨i, r', hget, hres, hamt, hbef⟩ := ih best b hb hlt
        refine ⟨i + 1, r', by simpa using hget, ?_, hamt, ?_⟩
        · rw [hstep]; exact hres
        · intro j rj hj hgetj
          cases j with
          | zero =>
            have : rj = r := by
              have h0 := hgetj
              simp only [List.get?] at h0
              exact (Option.some.inj h0).symm
            rw [this, haq]
            exact lt_of_le_of_lt (not_lt.mp hbq) hlt
          | succ j' =>
            exact hbef j' rj (by omega) (by simpa using hgetj)
    | none =>
      have haq : amtQ r = 0 := by rw [amtQ, hpr]; rfl
      have hmax : max b (amtQ r) = b := by rw [haq]; exact max_eq_left hb
      have hstep : bestManualAux (r :: rs) (best, b) = bestManualAux rs (best, b) := by
        simp only [bestManualAux, hpr]
      rw [hrm, hmax] at hlt ⊢
      obtain ⟨i, r', hget, hres, hamt, hbef⟩ := ih best b hb hlt
      refine ⟨i + 1, r', by simpa using hget, ?_, hamt, ?_⟩
      · rw [hstep]; exact hres
      · intro j rj hj hgetj
        cases j with
        | zero =>
          have : rj = r := by
            have h0 := hgetj
            simp only [List.get?] at h0
            exact (Option.some.inj h0).symm
          rw [this, haq]
          exact lt_of_le_of_lt hb hlt
        | succ j' =>
          exact hbef j' rj (by omega) (by simpa using hgetj)

/-- Claim C8 (confirmed): whenever some manual candidate has a positive parsed
output, the scan returns a candidate attaining the maximum parsed output, and
every earlier-listed candidate has a strictly smaller parsed output, so the
first-encountered candidate wins ties. -/
theorem best_manual_first_max (l : List BRoute) (h : 0 < runMax 0 l) :
    ∃ i r, l.get? i = some r ∧ (bestManual l).1 = some r ∧
      amtQ r = runMax 0 l ∧
      (∀ r' ∈ l, amtQ r' ≤ runMax 0 l) ∧
      ∀ j rj, j < i → l.get? j = some rj → amtQ rj < runMax 0 l := by
  obtain ⟨i, r, hget, hres, hamt, hbef⟩ := bestManualAux_spec l none 0 le_rfl h
  exact ⟨i, r, hget, hres, hamt, amtQ_le_runMax 0 l, hbef⟩

/-- A bare route candidate carrying only an output amount string. -/
def mkRoute (amt : String) : BRoute :=
  ⟨some ⟨amt⟩, [], none, [], none, none, none, none, none⟩

/-- The numeral 5 parses as itself. -/
theorem parseFloat_five : parseFloat "5" = some 5 := by
  rw [parseFloat_eval "5" false 5 0 0 (by decide)]
  norm_num

/-- A bare route with amount 5 has parsed amount 5. -/
theorem amtQ_mk_five : amtQ (mkRoute "5") = 5 := by
  simp [amtQ, routeParsedAmount, mkRoute, parseFloat_five]

/-- The numeral 3 parses as itself. -/
theorem parseFloat_three : parseFloat "3" = some 3 := by
  rw [parseFloat_eval "3" false 3 0 0 (by decide)]
  norm_num

/-- A bare route with amount 3 has parsed amount 3. -/
theorem amtQ_mk_three : amtQ (mkRoute "3") = 3 := by
  simp [amtQ, routeParsedAmount, mkRoute, parseFloat_three]

/-- Witness for claim C8 on the list 5, 3, 5: an index with the maximal
amount 5 and strictly smaller amounts before it, hence index zero. -/
theorem best_manual_first_max_witness :
    ∃ i r, [mkRoute "5", mkRoute "3", mkRoute "5"].get? i = some r ∧
      (bestManual [mkRoute "5", mkRoute "3", mkRoute "5"]).1 = some r ∧
      amtQ r = runMax 0 [mkRoute "5", mkRoute "3", mkRoute "5"] ∧
      (∀ r' ∈ [mkRoute "5", mkRoute "3", mkRoute "5"],
        amtQ r' ≤ runMax 0 [mkRoute "5", mkRoute "3", mkRoute "5"]) ∧
      ∀ j rj, j < i → [mkRoute "5", mkRoute "3", mkRoute "5"].get? j = some rj →
        amtQ rj < runMax 0 [mkRoute "5", mkRoute "3", mkRoute "5"] := by
  refine best_manual_first_max _ ?_
  have : runMax 0 [mkRoute "5", mkRoute "3", mkRoute "5"] = 5 := by
    simp [runMax, amtQ_mk_five, amtQ_mk_three]
    norm_num
  rw [this]
  norm_num

/-- Claim C5 (confirmed): the best-of-both selection takes the auto route
whenever it is present with an output, regardless of the manual routes; with
no auto route it falls through to the maximal-output manual route, and with no
manual routes at all to the head of the legacy route list. -/
theorem bungee_best_of_both_policy :
    (∀ (res : BResult) (r : BRoute) (o : BOutput), res.autoRoute = some r → r.output = some o →
       0 < amtQ r → selectBungeeRoute res = some r) ∧
    (∀ res : BResult, res.autoRoute = none → ¬res.manualRoutes.isEmpty →
       0 < runMax 0 res.manualRoutes →
       ∃ r, selectBungeeRoute res = some r ∧ amtQ r = runMax 0 res.manualRoutes) ∧
    (∀ res : BResult, res.autoRoute = none → res.manualRoutes.isEmpty →
       selectBungeeRoute res = res.routes.head?) := by
  refine ⟨?_, ?_, ?_⟩
  · intro res r o hauto hout _
    simp [selectBungeeRoute, hauto, hout]
  · intro res hauto hne hpos
    obtain ⟨i, r, hget, hres, hamt, hbef⟩ :=
      bestManualAux_spec res.manualRoutes none 0 le_rfl hpos
    refine ⟨r, ?_, hamt⟩
    simp only [selectBungeeRoute, hauto, selectBungeeNonAuto, if_neg hne]
    exact hres
  · intro res hauto hemp
    simp [selectBungeeRoute, hauto, selectBungeeNonAuto, hemp]

/-- The numeral 1 parses as itself. -/
theorem parseFloat_one : parseFloat "1" = some 1 := by
  rw [parseFloat_eval "1" false 1 0 0 (by decide)]
  norm_num

/-- Witness for claim C5: an auto route with output 1 beats a manual route
with the strictly larger output 5. -/
theorem bungee_best_of_both_policy_witness :
    selectBungeeRoute ⟨some (mkRoute "1"), [mkRoute "5"], []⟩ = some (mkRoute "1") := by
  refine bungee_best_of_both_policy.1 _ (mkRoute "1") ⟨"1"⟩ rfl rfl ?_
  have : amtQ (mkRoute "1") = 1 := by
    simp [amtQ, routeParsedAmount, mkRoute, parseFloat_one]
  rw [this]
  norm_num

/-! Claims C2 and C9: the shape of adapter quotes. -/

/-- A string is a fixed-decimal rendering at scale d with k places when it is
toFixed of some value divided by 10 ^ d, or the NaN rendering of a non-numeric
upstream amount. -/
def isFixedRendering (s : String) (d k : ℕ) : Prop :=
  (∃ v : ℚ, s = toFixed (v / 10 ^ d) k) ∨ s = "NaN"

/-- The shared success formatter always yields a fixed-decimal rendering. -/
theorem formatOutput_isFixedRendering (raw : String) (d k : ℕ) :
    isFixedRendering (formatOutput raw d k) d k := by
  unfold formatOutput isFixedRendering
  cases h : parseFloat raw with
  | some q => exact Or.inl ⟨q, rfl⟩
  | none => exact Or.inr rfl

/-- Every LiFi quote is either an error quote with the 0.0000 sentinel or an
error-free quote whose output is the two-place rendering of the upstream
amount. -/
theorem processLiFiResponse_dichotomy (resp : LiFiResp) (td : ℕ) (amtStr : String) (tp : ℚ) :
    ((processLiFiResponse resp td amtStr tp).error.isSome ∧
      (processLiFiResponse resp td amtStr tp).outputAmount = "0.0000") ∨
    ((processLiFiResponse resp td amtStr tp).error = none ∧
      isFixedRendering (processLiFiResponse resp td amtStr tp).outputAmount td 2) := by
  cases resp with
  | httpError status body => left; exact ⟨rfl, rfl⟩
  | ok data =>
    by_cases h1 : (data.estimate.isNone && !data.hasTransactionRequest) = true
    · left
      simp [processLiFiResponse, h1, lifiErrorQuote]
    · by_cases h2 : jsOrStr (data.estimate.bind (·.toAmount)) (jsOrStr data.toAmount "0") = "0"
      · left
        simp [processLiFiResponse, h1, h2, lifiErrorQuote]
      · right
        simp only [processLiFiResponse, if_neg h1, if_neg h2]
        exact ⟨by trivial, formatOutput_isFixedRendering _ td 2⟩

/-- The Bungee auto quote satisfies the same dichotomy at four places. -/
theorem bungeeAutoQuote_dichotomy (result : BResult) (td : ℕ) (amtStr : String) (tp : ℚ) :
    ((bungeeAutoQuote result td amtStr tp).error.isSome ∧
      (bungeeAutoQuote result td amtStr tp).outputAmount = "0.0000") ∨
    ((bungeeAutoQuote result td amtStr tp).error = none ∧
      isFixedRendering (bungeeAutoQuote result td amtStr tp).outputAmount td 4) := by
  rcases hA : result.autoRoute with _ | r
  · left
    simp [bungeeAutoQuote, hA]
  · rcases hO : r.output with _ | o
    · left
      simp [bungeeAutoQuote, hA, hO]
    · by_cases ha : o.amount = ""
      · left
        simp [bungeeAutoQuote, hA, hO, ha]
      · right
        constructor
        · simp [bungeeAutoQuote, hA, hO, ha]
        · have hout : (bungeeAutoQuote result td amtStr tp).outputAmount
              = formatOutput o.amount td 4 := by
            simp [bungeeAutoQuote, hA, hO, ha]
          rw [hout]
          exact formatOutput_isFixedRendering _ td 4

/-- The Bungee manual quote satisfies the same dichotomy at four places. -/
theorem bungeeManualQuote_dichotomy (result : BResult) (td : ℕ) (amtStr : String) (tp : ℚ) :
    ((bungeeManualQuote result td amtStr tp).error.isSome ∧
      (bungeeManualQuote result td amtStr tp).outputAmount = "0.0000") ∨
    ((bungeeManualQuote result td amtStr tp).error = none ∧
      isFixedRendering (bungeeManualQuote result td amtStr tp).outputAmount td 4) := by
  by_cases he : result.manualRoutes.isEmpty
  · left
    simp [bungeeManualQuote, he]
  · rcases hB : (bestManual result.manualRoutes).1 with _ | r
    · left
      simp [bungeeManualQuote, he, hB]
    · right
      constructor
      · simp [bungeeManualQuote, he, hB]
      · have hout : (bungeeManualQuote result td amtStr tp).outputAmount
            = toFixed ((bestManual result.manualRoutes).2 / 10 ^ td) 4 := by
          simp [bungeeManualQuote, he, hB]
        rw [hout]
        exact Or.inl ⟨_, rfl⟩

/-- Both components of the Bungee pair satisfy the dichotomy. -/
theorem processBungeeBoth_dichotomy (resp : BungeeResp) (td : ℕ) (amtStr : String) (tp : ℚ) :
    (((processBungeeBoth resp td amtStr tp).1.error.isSome ∧
       (processBungeeBoth resp td amtStr tp).1.outputAmount = "0.0000") ∨
     ((processBungeeBoth resp td amtStr tp).1.error = none ∧
       isFixedRendering (processBungeeBoth resp td amtStr tp).1.outputAmount td 4)) ∧
    (((processBungeeBoth resp td amtStr tp).2.error.isSome ∧
       (processBungeeBoth resp td amtStr tp).2.outputAmount = "0.0000") ∨
     ((processBungeeBoth resp td amtStr tp).2.error = none ∧
       isFixedRendering (processBungeeBoth resp td amtStr tp).2.outputAmount td 4)) := by
  rcases resp with ⟨status, body⟩ | ⟨data⟩
  · constructor <;> exact Or.inl ⟨rfl, rfl⟩
  · by_cases hs : data.success = true
    · rcases hr : data.result with _ | result
      · have h1 : processBungeeBoth (.ok data) td amtStr tp
            = (bungeeErrorQuote "No quote available" amtStr tp,
               bungeeErrorQuote "No quote available" amtStr tp) := by
          simp [processBungeeBoth, hs, hr]
        rw [h1]
        constructor <;> exact Or.inl ⟨rfl, rfl⟩
      · have h1 : processBungeeBoth (.ok data) td amtStr tp
            = (bungeeAutoQuote result td amtStr tp, bungeeManualQuote result td amtStr tp) := by
          simp [processBungeeBoth, hs, hr]
        rw [h1]
        exact ⟨bungeeAutoQuote_dichotomy result td amtStr tp,
          bungeeManualQuote_dichotomy result td amtStr tp⟩
    · have h1 : processBungeeBoth (.ok data) td amtStr tp
          = (bungeeErrorQuote (jsOrStr data.message (jsOrStr data.errorField "Quote failed")) amtStr tp,
             bungeeErrorQuote (jsOrStr data.message (jsOrStr data.errorField "Quote failed")) amtStr tp) := by
        simp [processBungeeBoth, hs]
      rw [h1]
      constructor <;> exact Or.inl ⟨rfl, rfl⟩

/-- Claim C2 (amended): every quote either carries an error with outputAmount
exactly the 0.0000 sentinel, or carries no error, and then outputAmount is the
fixed-decimal rendering (two places for LiFi, four for Bungee) of the parsed
upstream amount scaled by the destination decimals.  The success rendering is
not always positive: a zero or negligible upstream amount yields a zero
rendering with no error, and a non-numeric one yields NaN. -/
theorem adapter_quote_error_dichotomy :
    (∀ (u : JSNum) (p : ℚ) (fd td : ℕ) (resp : LiFiResp),
       ((getLiFiQuoteModel u p fd td resp).1.error.isSome ∧
         (getLiFiQuoteModel u p fd td resp).1.outputAmount = "0.0000") ∨
       ((getLiFiQuoteModel u p fd td resp).1.error = none ∧
         isFixedRendering (getLiFiQuoteModel u p fd td resp).1.outputAmount td 2)) ∧
    (∀ (u : JSNum) (p : ℚ) (fd td : ℕ) (resp : BungeeResp),
       (((getBungeeBothModel u p fd td resp).1.1.error.isSome ∧
          (getBungeeBothModel u p fd td resp).1.1.outputAmount = "0.0000") ∨
        ((getBungeeBothModel u p fd td resp).1.1.error = none ∧
          isFixedRendering (getBungeeBothModel u p fd td resp).1.1.outputAmount td 4)) ∧
       (((getBungeeBothModel u p fd td resp).1.2.error.isSome ∧
          (getBungeeBothModel u p fd td resp).1.2.outputAmount = "0.0000") ∨
        ((getBungeeBothModel u p fd td resp).1.2.error = none ∧
          isFixedRendering (getBungeeBothModel u p fd td resp).1.2.outputAmount td 4))) := by
  constructor
  · intro u p fd td resp
    rcases hc : convertInfo u p with _ | x
    · left
      constructor
      · simp [getLiFiQuoteModel, hc]
      · simp [getLiFiQuoteModel, hc]
    · have he : (getLiFiQuoteModel u p fd td resp).1
          = processLiFiResponse resp td (toFixed x.1 6) x.2 := by
        simp [getLiFiQuoteModel, hc]
      rw [he]
      exact processLiFiResponse_dichotomy resp td (toFixed x.1 6) x.2
  · intro u p fd td resp
    rcases hc : convertInfo u p with _ | x
    · constructor
      · left
        constructor
        · simp [getBungeeBothModel, hc]
        · simp [getBungeeBothModel, hc]
      · left
        constructor
        · simp [getBungeeBothModel, hc]
        · simp [getBungeeBothModel, hc]
    · have he : (getBungeeBothModel u p fd td resp).1
          = processBungeeBoth resp td (toFixed x.1 6) x.2 := by
        simp [getBungeeBothModel, hc]
      rw [he]
      exact processBungeeBoth_dichotomy resp td (toFixed x.1 6) x.2

/-- The numeral 0 parses as itself. -/
theorem parseFloat_zero : parseFloat "0" = some 0 := by
  rw [parseFloat_eval "0" false 0 0 0 (by decide)]
  norm_num

/-- A zero base-unit amount renders as the 0.0000 sentinel string. -/
theorem formatOutput_zero_18 : formatOutput "0" 18 4 = "0.0000" := by
  unfold formatOutput
  rw [parseFloat_zero]
  show toFixed ((0 : ℚ) / 10 ^ 18) 4 = "0.0000"
  rw [show (0 : ℚ) / 10 ^ 18 = 0 by norm_num]
  rw [toFixed_eval 0 4 0 le_rfl (by norm_num)]
  decide

/-- A Bungee response whose auto route reports the truthy amount string 0. -/
def zeroAutoData : BungeeData := ⟨true, some ⟨some (mkRoute "0"), [], []⟩, none, none⟩

/-- Claim C2, counterexample: an upstream auto route with amount string 0 is
truthy, so the adapter takes the success path and produces a quote with no
error whose outputAmount is the sentinel 0.0000, which parses to zero — a
non-error quote with zero output, violating the stated dichotomy. -/
theorem bungee_auto_zero_output_no_error :
    (getBungeeBothModel (.fin 1000) 1 6 18 (.ok zeroAutoData)).1.1.error = none ∧
    (getBungeeBothModel (.fin 1000) 1 6 18 (.ok zeroAutoData)).1.1.outputAmount = "0.0000" ∧
    parseFloat "0.0000" = some 0 := by
  have hconv : convertInfo (.fin 1000) 1 = some (1000, 1) := by
    norm_num [convertInfo]
  have hq : (getBungeeBothModel (.fin 1000) 1 6 18 (.ok zeroAutoData)).1.1
      = bungeeAutoQuote ⟨some (mkRoute "0"), [], []⟩ 18 (toFixed (1000 : ℚ) 6) 1 := by
    simp [getBungeeBothModel, hconv, processBungeeBoth, zeroAutoData]
  have hauto : bungeeAutoQuote ⟨some (mkRoute "0"), [], []⟩ 18 (toFixed (1000 : ℚ) 6) 1
      = ⟨formatOutput "0" 18 4, "5 min", "Bungee Auto", some "Bungee Auto", none,
          toFixed (1000 : ℚ) 6, 1⟩ := by
    simp [bungeeAutoQuote, mkRoute, minutesLabel, optTruthy]
  rw [hq, hauto]
  refine ⟨rfl, ?_, ?_⟩
  · exact formatOutput_zero_18
  · rw [parseFloat_eval "0.0000" false 0 0 4 (by decide)]
    norm_num

/-- Claim C9 (confirmed): on a successful response the output amount is the
upstream base units divided by 10 ^ decimals of the destination token,
rendered with two fixed places by the LiFi adapter and four by the Bungee
adapter, and 2630000000 base units at six decimals render as 2630.00. -/
theorem adapter_output_formatting :
    (∀ (data : LiFiData) (est : LiFiEstimate) (s : String) (td : ℕ) (amtStr : String) (tp : ℚ),
       data.estimate = some est → est.toAmount = some s → s ≠ "" → s ≠ "0" →
       (processLiFiResponse (.ok data) td amtStr tp).outputAmount = formatOutput s td 2) ∧
    (∀ (data : BungeeData) (result : BResult) (r : BRoute) (o : BOutput) (td : ℕ)
       (amtStr : String) (tp : ℚ),
       data.success = true → data.result = some result → result.autoRoute = some r →
       r.output = some o → o.amount ≠ "" →
       (processBungeeBoth (.ok data) td amtStr tp).1.outputAmount = formatOutput o.amount td 4) ∧
    formatOutput "2630000000" 6 2 = "2630.00" := by
  refine ⟨?_, ?_, ?_⟩
  · intro data est s td amtStr tp hE hT hs h0
    have hsel : jsOrStr est.toAmount (jsOrStr data.toAmount "0") = s := by
      simp [jsOrStr, hT, hs]
    simp [processLiFiResponse, hE, hsel, h0]
  · intro data result r o td amtStr tp hS hR hA hO ha
    simp [processBungeeBoth, hS, hR, bungeeAutoQuote, hA, hO, ha]
  · have hp : parseFloat "2630000000" = some 2630000000 := by
      rw [parseFloat_eval "2630000000" false 2630000000 0 0 (by decide)]
      norm_num
    unfold formatOutput
    rw [hp]
    show toFixed ((2630000000 : ℚ) / 10 ^ 6) 2 = "2630.00"
    rw [toFixed_eval _ 2 263000 (by positivity) (by norm_num)]
    decide

/-- The LiFi response of the end-to-end formatting scenario. -/
def c9Data : LiFiData :=
  ⟨some ⟨some "2630000000", none, none⟩, false, none, none, none, none, none, none, none⟩

/-- Witness for claim C9: the scenario response renders 2630.00. -/
theorem adapter_output_formatting_witness :
    (processLiFiResponse (.ok c9Data) 6 "1000.000000" 1).outputAmount = "2630.00" := by
  have h := adapter_output_formatting.1 c9Data ⟨some "2630000000", none, none⟩ "2630000000" 6
    "1000.000000" 1 rfl rfl (by decide) (by decide)
  rw [h]
  exact adapter_output_formatting.2.2

/-- A fresh cache entry is returned as is, with the cache untouched and zero
upstream fetches. -/
theorem getTokenPrice_hit (env : PriceEnv) (cache : PriceCache) (now : ℕ) (c tok : String)
    (p : ℚ) (t : ℕ) (h : cache (priceCacheKey c tok) = some (p, t))
    (hf : now - t < PRICE_CACHE_DURATION) :
    getTokenPrice env cache now c tok = (p, cache, 0) := by
  simp [getTokenPrice, cacheFresh, h, hf]

/-- On a cache miss the cascade result is returned and stored under the key
with the current timestamp. -/
theorem getTokenPrice_miss (env : PriceEnv) (cache : PriceCache) (now : ℕ) (c tok : String)
    (h : cacheFresh cache (priceCacheKey c tok) now = none) :
    getTokenPrice env cache now c tok
      = ((resolveMiss env c tok).1,
         cacheSet cache (priceCacheKey c tok) (resolveMiss env c tok).1 now,
         (resolveMiss env c tok).2) := by
  simp [getTokenPrice, h]

/-- An absent entry is never fresh. -/
theorem cacheFresh_absent (cache : PriceCache) (key : String) (now : ℕ)
    (h : cache key = none) : cacheFresh cache key now = none := by
  simp [cacheFresh, h]

/-- An entry at least TTL old is treated as absent at read time. -/
theorem cacheFresh_stale (cache : PriceCache) (key : String) (now : ℕ) (p : ℚ) (t : ℕ)
    (h : cache key = some (p, t)) (hs : PRICE_CACHE_DURATION ≤ now - t) :
    cacheFresh cache key now = none := by
  simp [cacheFresh, h, not_lt.mpr hs]

/-- A stored entry is readable at its key. -/
theorem cacheSet_self (cache : PriceCache) (key : String) (p : ℚ) (now : ℕ) :
    cacheSet cache key p now key = some (p, now) := by
  simp [cacheSet]

/-- The empty cache has no fresh entry. -/
theorem emptyCache_fresh (key : String) (now : ℕ) : cacheFresh emptyCache key now = none := by
  simp [cacheFresh, emptyCache]

/-- A validated Bungee token price is positive. -/
theorem bungeeTokenPrice_pos (t : BungeeToken) (p : ℚ) (h : bungeeTokenPrice t = some p) :
    0 < p := by
  rcases ht : t.priceInUsd with _ | v
  · simp [bungeeTokenPrice, ht] at h
  · simp only [bungeeTokenPrice, ht] at h
    by_cases hv : 0 < v
    · rw [if_pos hv] at h
      cases h
      exact hv
    · rw [if_neg hv] at h
      cases h

/-- A validated LiFi token price is positive. -/
theorem lifiTokenPrice_pos (t : LiFiToken) (p : ℚ) (h : lifiTokenPrice t = some p) :
    0 < p := by
  rcases ht : t.priceUSD with _ | v
  · simp [lifiTokenPrice, ht] at h
  · simp only [lifiTokenPrice, ht] at h
    by_cases hv : 0 < v
    · rw [if_pos hv] at h
      cases h
      exact hv
    · rw [if_neg hv] at h
      cases h

/-- Every hardcoded native fallback price is positive. -/
theorem nativePrices_pos (c : String) (p : ℚ) (h : nativePrices c = some p) : 0 < p := by
  unfold nativePrices at h
  split_ifs at h <;> simp_all <;> norm_num [← h]

/-- The native block yields a positive price when the spot-price feed only
carries positive values. -/
theorem nativeStrat_pos (env : PriceEnv) (c tok : String)
    (hcg : ∀ id v, env.cgSimple id = some v → 0 < v) (p : ℚ)
    (h : (nativeStrat env c tok).1 = some p) : 0 < p := by
  by_cases hn : isNativeToken tok
  · rcases hsym : nativeTokenSymbols c with _ | coinId
    · simp only [nativeStrat, if_pos hn, hsym] at h
      exact nativePrices_pos c p h
    · rcases hv : env.cgSimple coinId with _ | v
      · simp only [nativeStrat, if_pos hn, hsym, hv] at h
        exact nativePrices_pos c p h
      · by_cases hz : v ≠ 0
        · simp only [nativeStrat, if_pos hn, hsym, hv, if_pos hz] at h
          cases h
          exact hcg coinId p hv
        · simp only [nativeStrat, if_pos hn, hsym, hv, if_neg hz] at h
          exact nativePrices_pos c p h
  · simp only [nativeStrat, if_neg hn] at h
    cases h

/-- The Bungee token-list strategy only yields validated positive prices. -/
theorem bungeeStrat_pos (env : PriceEnv) (c n : String) (p : ℚ)
    (h : (bungeeStrat env c n).1 = some p) : 0 < p := by
  rcases hl : env.bungeeTokens c with _ | toks
  · simp [bungeeStrat, hl] at h
  · rcases hf : toks.find? (fun t => jsToLower t.address = n) with _ | tok
    · simp only [bungeeStrat, hl, hf] at h
      obtain ⟨tk, _, hpr⟩ := Option.bind_eq_some.mp h
      exact bungeeTokenPrice_pos tk p hpr
    · simp only [bungeeStrat, hl, hf] at h
      exact bungeeTokenPrice_pos tok p h

/-- The LiFi token-list strategy only yields validated positive prices. -/
theorem lifiStrat_pos (env : PriceEnv) (c n : String) (p : ℚ)
    (h : (lifiStrat env c n).1 = some p) : 0 < p := by
  rcases hl : env.lifiTokens c with _ | toks
  · simp [lifiStrat, hl] at h
  · rcases hf : toks.find? (fun t => jsToLower t.address = n) with _ | tok
    · simp only [lifiStrat, hl, hf] at h
      obtain ⟨tk, _, hpr⟩ := Option.bind_eq_some.mp h
      exact lifiTokenPrice_pos tk p hpr
    · simp only [lifiStrat, hl, hf] at h
      exact lifiTokenPrice_pos tok p h

/-- The known-contract strategy yields a positive price when the feed only
carries positive values. -/
theorem cgContractStrat_pos (env : PriceEnv) (n : String)
    (hcg : ∀ id v, env.cgSimple id = some v → 0 < v) (p : ℚ)
    (h : (cgContractStrat env n).1 = some p) : 0 < p := by
  rcases hk : knownTokenContracts n with _ | coinId
  · simp [cgContractStrat, hk] at h
  · rcases hv : env.cgSimple coinId with _ | v
    · simp [cgContractStrat, hk, hv] at h
    · simp only [cgContractStrat, hk, hv] at h
      by_cases hz : v ≠ 0
      · rw [if_pos hz] at h
        cases h
        exact hcg coinId p hv
      · rw [if_neg hz] at h
        cases h

/-- The platform strategy yields a positive price when the feed only carries
positive values. -/
theorem cgPlatformStrat_pos (env : PriceEnv) (c tok n : String)
    (hplat : ∀ pl a v, env.cgByPlatform pl a = some v → 0 < v) (p : ℚ)
    (h : (cgPlatformStrat env c tok n).1 = some p) : 0 < p := by
  rcases hk : platformMappings c with _ | plat
  · simp [cgPlatformStrat, hk] at h
  · by_cases hn : isNativeToken tok
    · simp [cgPlatformStrat, hk, hn] at h
    · rcases hv : env.cgByPlatform plat n with _ | v
      · simp [cgPlatformStrat, hk, hn, hv] at h
      · simp only [cgPlatformStrat, hk, if_neg hn, hv] at h
        by_cases hz : v ≠ 0
        · rw [if_pos hz] at h
          cases h
          exact hplat plat n p hv
        · rw [if_neg hz] at h
          cases h

/-- The cascade yields a positive price when the spot-price feeds only carry
positive values: the token-list strategies validate positivity themselves,
and the fallbacks are the positive constants and 1. -/
theorem resolveMiss_pos (env : PriceEnv) (c tok : String)
    (hcg : ∀ id v, env.cgSimple id = some v → 0 < v)
    (hplat : ∀ pl a v, env.cgByPlatform pl a = some v → 0 < v) :
    0 < (resolveMiss env c tok).1 := by
  simp only [resolveMiss]
  rcases h0 : (nativeStrat env c tok).1 with _ | p
  · rcases h1 : (bungeeStrat env c (jsToLower tok)).1 with _ | p
    · rcases h2 : (lifiStrat env c (jsToLower tok)).1 with _ | p
      · rcases h3 : (cgContractStrat env (jsToLower tok)).1 with _ | p
        · rcases h4 : (cgPlatformStrat env c tok (jsToLower tok)).1 with _ | p
          · by_cases hs : stablecoins.contains (jsToLower tok) <;> simp [hs]
          · simp only []
            exact cgPlatformStrat_pos env c tok (jsToLower tok) hplat p h4
        · exact cgContractStrat_pos env (jsToLower tok) hcg p h3
      · exact lifiStrat_pos env c (jsToLower tok) p h2
    · exact bungeeStrat_pos env c (jsToLower tok) p h1
  · exact nativeStrat_pos env c tok hcg p h0

/-- The resolver yields a positive price when the feeds and the cache only
carry positive values. -/
theorem getTokenPrice_pos (env : PriceEnv) (cache : PriceCache) (now : ℕ) (c tok : String)
    (hcg : ∀ id v, env.cgSimple id = some v → 0 < v)
    (hplat : ∀ pl a v, env.cgByPlatform pl a = some v → 0 < v)
    (hcache : ∀ k q t, cache k = some (q, t) → 0 < q) :
    0 < (getTokenPrice env cache now c tok).1 := by
  rcases hf : cacheFresh cache (priceCacheKey c tok) now with _ | p
  · rw [getTokenPrice_miss env cache now c tok hf]
    exact resolveMiss_pos env c tok hcg hplat
  · have : ∃ t, cache (priceCacheKey c tok) = some (p, t) := by
      unfold cacheFresh at hf
      rcases hc : cache (priceCacheKey c tok) with _ | ⟨q, t⟩
      · simp only [hc] at hf
        exact Option.noConfusion hf
      · simp only [hc] at hf
        by_cases ht : now - t < PRICE_CACHE_DURATION
        · rw [if_pos ht] at hf
          cases hf
          exact ⟨t, rfl⟩
        · rw [if_neg ht] at hf
          cases hf
    obtain ⟨t, hc⟩ := this
    have hres : getTokenPrice env cache now c tok = (p, cache, 0) := by
      simp [getTokenPrice, hf]
    rw [hres]
    exact hcache _ p t hc

/-- With every strategy missed the cascade returns 1 (both the stablecoin
step and the hard fallback). -/
theorem resolveMiss_all_missed (env : PriceEnv) (c tok : String)
    (h0 : (nativeStrat env c tok).1 = none)
    (h1 : (bungeeStrat env c (jsToLower tok)).1 = none)
    (h2 : (lifiStrat env c (jsToLower tok)).1 = none)
    (h3 : (cgContractStrat env (jsToLower tok)).1 = none)
    (h4 : (cgPlatformStrat env c tok (jsToLower tok)).1 = none) :
    (resolveMiss env c tok).1 = 1 := by
  simp only [resolveMiss, h0, h1, h2, h3, h4]
  by_cases hs : stablecoins.contains (jsToLower tok) <;> simp [hs]

/-- The known-contract strategy misses when no service responds. -/
theorem cgContractStrat_empty (n : String) : (cgContractStrat emptyEnv n).1 = none := by
  rcases hk : knownTokenContracts n with _ | id <;> simp [cgContractStrat, hk, emptyEnv]

/-- The platform strategy misses when no service responds. -/
theorem cgPlatformStrat_empty (c tok n : String) :
    (cgPlatformStrat emptyEnv c tok n).1 = none := by
  rcases hk : platformMappings c with _ | plat
  · simp [cgPlatformStrat, hk]
  · by_cases hn : isNativeToken tok <;> simp [cgPlatformStrat, hk, hn, emptyEnv]

/-- With no service responding the cascade returns 1 for every non-native
token. -/
theorem resolveMiss_emptyEnv (c tok : String) (hnat : isNativeToken tok = false) :
    (resolveMiss emptyEnv c tok).1 = 1 := by
  refine resolveMiss_all_missed emptyEnv c tok ?_ rfl rfl
    (cgContractStrat_empty _) (cgPlatformStrat_empty c tok _)
  simp [nativeStrat, hnat]

/-- Claim C6 (confirmed): a repeated resolve strictly within the TTL of a
cache entry returns the cached price with the cache untouched and zero
upstream fetches; after a cache-miss resolution stores its price, any resolve
within the TTL returns that price with zero fetches; and a stale entry is
treated exactly as an absent one (the cascade re-runs against the same
environment and the entry is overwritten with a fresh timestamp), even though
nothing ever evicts it. -/
theorem price_cache_ttl_behavior :
    (∀ (env : PriceEnv) (cache : PriceCache) (now : ℕ) (c tok : String) (p : ℚ) (t : ℕ),
       cache (priceCacheKey c tok) = some (p, t) → now - t < PRICE_CACHE_DURATION →
       getTokenPrice env cache now c tok = (p, cache, 0)) ∧
    (∀ (env env' : PriceEnv) (cache : PriceCache) (now now' : ℕ) (c tok : String),
       cache (priceCacheKey c tok) = none → now' - now < PRICE_CACHE_DURATION →
       getTokenPrice env' (getTokenPrice env cache now c tok).2.1 now' c tok
         = ((getTokenPrice env cache now c tok).1,
            (getTokenPrice env cache now c tok).2.1, 0)) ∧
    (∀ (env : PriceEnv) (cache : PriceCache) (now : ℕ) (c tok : String) (p : ℚ) (t : ℕ),
       cache (priceCacheKey c tok) = some (p, t) → PRICE_CACHE_DURATION ≤ now - t →
       getTokenPrice env cache now c tok
         = getTokenPrice env (fun k => if k = priceCacheKey c tok then none else cache k)
             now c tok ∧
       (getTokenPrice env cache now c tok).2.1 (priceCacheKey c tok)
         = some ((getTokenPrice env cache now c tok).1, now)) := by
  refine ⟨?_, ?_, ?_⟩
  · intro env cache now c tok p t h hf
    exact getTokenPrice_hit env cache now c tok p t h hf
  · intro env env' cache now now' c tok h hf
    rw [getTokenPrice_miss env cache now c tok (cacheFresh_absent _ _ _ h)]
    exact getTokenPrice_hit env' _ now' c tok _ now (cacheSet_self _ _ _ _) hf
  · intro env cache now c tok p t h hs
    have hst := cacheFresh_stale cache _ now p t h hs
    have herased : cacheFresh
        (fun k => if k = priceCacheKey c tok then none else cache k)
        (priceCacheKey c tok) now = none := by
      apply cacheFresh_absent
      simp
    rw [getTokenPrice_miss env cache now c tok hst,
      getTokenPrice_miss env _ now c tok herased]
    constructor
    · have hceq : cacheSet cache (priceCacheKey c tok) (resolveMiss env c tok).1 now
          = cacheSet (fun k => if k = priceCacheKey c tok then none else cache k)
              (priceCacheKey c tok) (resolveMiss env c tok).1 now := by
        funext k
        by_cases hk : k = priceCacheKey c tok <;> simp [cacheSet, hk]
      rw [hceq]
    · exact cacheSet_self _ _ _ _

/-- Witness for claim C6: a 100 ms old entry is returned unchanged at a TTL
of five minutes. -/
theorem price_cache_ttl_behavior_witness :
    getTokenPrice emptyEnv
        (fun k => if k = "1-0xab" then some ((5 : ℚ), 100) else none) 200 "1" "0xab"
      = (5, (fun k => if k = "1-0xab" then some ((5 : ℚ), 100) else none), 0) := by
  have hkey : priceCacheKey "1" "0xab" = "1-0xab" := by decide
  refine price_cache_ttl_behavior.1 emptyEnv _ 200 "1" "0xab" 5 100 ?_ (by decide)
  rw [hkey]
  rfl

/-- An environment whose spot-price feed reports the malformed price -5 for
ethereum. -/
def negEnv : PriceEnv :=
  ⟨fun id => if id = "ethereum" then some (-5) else none,
   fun _ _ => none, fun _ => none, fun _ => none⟩

/-- Claim C3, counterexample: the native-token CoinGecko path checks only JS
truthiness of the usd field, so a malformed negative feed value is returned
as the resolved price, violating strict positivity. -/
theorem getTokenPrice_negative_feed_passthrough :
    (getTokenPrice negEnv emptyCache 0 "1"
        "0x0000000000000000000000000000000000000000").1 = -5 ∧ ¬(0 < (-5 : ℚ)) := by
  constructor
  · rw [getTokenPrice_miss negEnv emptyCache 0 "1" _ (emptyCache_fresh _ _)]
    have hnat : isNativeToken "0x0000000000000000000000000000000000000000" = true := by decide
    have hsym : nativeTokenSymbols "1" = some "ethereum" := rfl
    have hcg : negEnv.cgSimple "ethereum" = some (-5) := rfl
    have hns : nativeStrat negEnv "1" "0x0000000000000000000000000000000000000000"
        = (some (-5), 1) := by
      simp only [nativeStrat, hnat, if_true, hsym, hcg]
      rw [if_pos (by norm_num : (-5 : ℚ) ≠ 0)]
    simp only [resolveMiss, hns]
  · norm_num

/-- Claim C3 (amended): resolution is total (the model returns a price for
every input, mirroring the try/catch absorption in the source) and returns a
strictly positive price provided the spot-price feed values and cached prices
are positive — the token-list strategies validate positivity themselves, but
the CoinGecko paths pass any truthy value through; with every strategy missed
the worst case is exactly 1. -/
theorem getTokenPrice_positive_of_positive_feeds :
    (∀ (env : PriceEnv) (cache : PriceCache) (now : ℕ) (c tok : String),
       (∀ id v, env.cgSimple id = some v → 0 < v) →
       (∀ pl a v, env.cgByPlatform pl a = some v → 0 < v) →
       (∀ k q t, cache k = some (q, t) → 0 < q) →
       0 < (getTokenPrice env cache now c tok).1) ∧
    (∀ (now : ℕ) (c tok : String), isNativeToken tok = false →
       (getTokenPrice emptyEnv emptyCache now c tok).1 = 1) := by
  constructor
  · exact fun env cache now c tok hcg hplat hc =>
      getTokenPrice_pos env cache now c tok hcg hplat hc
  · intro now c tok hnat
    rw [getTokenPrice_miss emptyEnv emptyCache now c tok (emptyCache_fresh _ _)]
    exact resolveMiss_emptyEnv c tok hnat

/-- Witness for claim C3 at an unavailable upstream: positive, and exactly 1
for a non-native token. -/
theorem getTokenPrice_positive_witness :
    0 < (getTokenPrice emptyEnv emptyCache 0 "1" "0xabc").1 ∧
    (getTokenPrice emptyEnv emptyCache 0 "99" "0xabc").1 = 1 :=
  ⟨getTokenPrice_positive_of_positive_feeds.1 emptyEnv emptyCache 0 "1" "0xabc"
      (fun _ _ h => Option.noConfusion h) (fun _ _ _ h => Option.noConfusion h)
      (fun _ _ _ h => Option.noConfusion h),
   getTokenPrice_positive_of_positive_feeds.2 0 "99" "0xabc" (by decide)⟩

/-- The USDT address, a member of the stablecoin allow-list. -/
def usdtAddr : String := "0xdac17f958d2ee523a2206206994597c13d831ec7"

/-- An environment whose Bungee token list prices USDT at 0.999. -/
def usdtEnv : PriceEnv :=
  ⟨fun _ => none, fun _ _ => none,
   fun ch => if ch = "1" then some [⟨usdtAddr, "USDT", some (999 / 1000)⟩] else none,
   fun _ => none⟩

/-- Claim C7, counterexample: the stablecoin allow-list is only step 7 of the
cascade, so a responding upstream that prices the allow-listed USDT at 0.999
makes resolution return 0.999, not 1.0. -/
theorem stablecoin_upstream_price_overrides :
    (getTokenPrice usdtEnv emptyCache 0 "1" usdtAddr).1 = 999 / 1000 ∧
    jsToLower usdtAddr ∈ stablecoins ∧ (999 / 1000 : ℚ) ≠ 1 := by
  have hlow : jsToLower usdtAddr = usdtAddr := by decide
  have hnat : isNativeToken usdtAddr = false := by decide
  refine ⟨?_, by decide, by norm_num⟩
  rw [getTokenPrice_miss usdtEnv emptyCache 0 "1" _ (emptyCache_fresh _ _)]
  have hn0 : nativeStrat usdtEnv "1" usdtAddr = (none, 0) := by
    simp [nativeStrat, hnat]
  have hb : usdtEnv.bungeeTokens "1" = some [⟨usdtAddr, "USDT", some (999 / 1000)⟩] := rfl
  have hfind : List.find? (fun t : BungeeToken => jsToLower t.address = usdtAddr)
      ([⟨usdtAddr, "USDT", some (999 / 1000)⟩] : List BungeeToken)
      = some (⟨usdtAddr, "USDT", some (999 / 1000)⟩ : BungeeToken) := by
    have hpred : (fun t : BungeeToken => decide (jsToLower t.address = usdtAddr))
        (⟨usdtAddr, "USDT", some (999 / 1000)⟩ : BungeeToken) = true := by decide
    simp only [List.find?, hpred]
  have hstrat : bungeeStrat usdtEnv "1" usdtAddr = (some (999 / 1000), 1) := by
    simp only [bungeeStrat, hb, hfind]
    simp only [bungeeTokenPrice]
    rw [if_pos (by norm_num : (0 : ℚ) < 999 / 1000)]
  show (resolveMiss usdtEnv "1" usdtAddr).1 = 999 / 1000
  simp only [resolveMiss, hlow, hn0, hstrat]

/-- Claim C7 (amended): an allow-listed stablecoin resolves to exactly 1.0
whenever the upstream services do not respond; a responding upstream with a
valid price for the token takes precedence over the allow-list. -/
theorem stablecoin_fallback_one (now : ℕ) (c tok : String)
    (h : jsToLower tok ∈ stablecoins) :
    (getTokenPrice emptyEnv emptyCache now c tok).1 = 1 := by
  have hnat : isNativeToken tok = false := by
    simp only [stablecoins, List.mem_cons, List.not_mem_nil, or_false] at h
    unfold isNativeToken
    rcases h with h | h | h | h | h | h | h <;> rw [h] <;> decide
  rw [getTokenPrice_miss emptyEnv emptyCache now c tok (emptyCache_fresh _ _)]
  exact resolveMiss_emptyEnv c tok hnat

/-- Witness for claim C7 at the USDT address with no upstream available. -/
theorem stablecoin_fallback_one_witness :
    (getTokenPrice emptyEnv emptyCache 0 "1" usdtAddr).1 = 1 :=
  stablecoin_fallback_one 0 "1" usdtAddr (by decide)

/-- Claim C10, counterexample: the cache-hit return path writes nothing, so
the stored timestamp 10 is not refreshed to the current time 20. -/
theorem cache_hit_no_fresh_write :
    (getTokenPrice emptyEnv (fun k => if k = "1-0xab" then some ((2 : ℚ), 10) else none)
        20 "1" "0xab").2.1 (priceCacheKey "1" "0xab") = some (2, 10) ∧ (10 : ℕ) ≠ 20 := by
  have hkey : priceCacheKey "1" "0xab" = "1-0xab" := by decide
  have hc : (fun k => if k = "1-0xab" then some ((2 : ℚ), 10) else none)
      (priceCacheKey "1" "0xab") = some (2, 10) := by
    rw [hkey]
    rfl
  rw [getTokenPrice_hit emptyEnv _ 20 "1" "0xab" 2 10 hc (by decide)]
  exact ⟨hc, by decide⟩

/-- Claim C10 (amended): on every cache-miss return path, including the hard
fallback, the returned price is stored under chainId joined with the
lowercased address, with the current timestamp; consequently a token that
could not be resolved keeps returning 1.0 with zero upstream fetches for the
next five minutes.  The cache-hit path, excluded here, returns without
rewriting the entry. -/
theorem miss_paths_write_cache :
    (∀ (env : PriceEnv) (cache : PriceCache) (now : ℕ) (c tok : String),
       cacheFresh cache (priceCacheKey c tok) now = none →
       (getTokenPrice env cache now c tok).2.1 (priceCacheKey c tok)
         = some ((getTokenPrice env cache now c tok).1, now)) ∧
    (∀ (cache : PriceCache) (now now' : ℕ) (c tok : String) (env' : PriceEnv),
       cacheFresh cache (priceCacheKey c tok) now = none → isNativeToken tok = false →
       now' - now < PRICE_CACHE_DURATION →
       getTokenPrice env' (getTokenPrice emptyEnv cache now c tok).2.1 now' c tok
         = (1, (getTokenPrice emptyEnv cache now c tok).2.1, 0)) := by
  constructor
  · intro env cache now c tok h
    rw [getTokenPrice_miss env cache now c tok h]
    exact cacheSet_self _ _ _ _
  · intro cache now now' c tok env' h hnat hf
    have hp := resolveMiss_emptyEnv c tok hnat
    rw [getTokenPrice_miss emptyEnv cache now c tok h]
    rw [getTokenPrice_hit env' _ now' c tok _ now (cacheSet_self _ _ _ _) hf]
    rw [hp]

/-- Witness for claim C10: the hard-fallback resolution stores its price. -/
theorem miss_paths_write_cache_witness :
    (getTokenPrice emptyEnv emptyCache 0 "1" "0xab").2.1 (priceCacheKey "1" "0xab")
      = some ((getTokenPrice emptyEnv emptyCache 0 "1" "0xab").1, 0) :=
  miss_paths_write_cache.1 emptyEnv emptyCache 0 "1" "0xab" (emptyCache_fresh _ _)
